import Mathlib

/-
Verification of the go-soql marshaller (forcedotcom/go-soql, marshaller.go).

The Go code walks reflected struct values whose fields carry a soql tag.
We embed the reflected view of such values: a value is a scalar, a pointer
(possibly nil), a slice, or a struct given as an ordered list of fields,
where each field carries its Go field name, its soql tag string and its
value.  Scalars whose only observation in the marshaller is a formatting
function (floats via fmt.Sprint, time.Time via Format(DateFormat)) are
carried as the string that formatting produces.
-/

namespace Soql

/- Integer kinds distinguished by the Go type switches
   (int, int8, ..., uint64). -/
inductive IntKind where
  | i | i8 | i16 | i32 | i64 | u | u8 | u16 | u32 | u64
deriving DecidableEq, Repr

/- Float kinds distinguished by the Go type switches. -/
inductive FloatKind where
  | f32 | f64
deriving DecidableEq, Repr

/- Order mirrors the exported Order struct (Field, IsDesc). -/
structure Order where
  Field : String
  IsDesc : Bool
deriving DecidableEq, Repr

mutual
/- A Go value as seen by reflection in the marshaller.
   vFloat carries the fmt.Sprint rendering of the float; vTime carries the
   u.Format(DateFormat) rendering of the time.Time; vFloatSlice and
   vTimeSlice carry those renderings elementwise.  vNilStruct is a nil
   pointer to a struct type, vPtrStructV a non-nil one. -/
inductive GoValue where
  | vString (s : String)
  | vInt (k : IntKind) (n : Int)
  | vFloat (k : FloatKind) (repr : String)
  | vBool (b : Bool)
  | vTime (repr : String)
  | vPtrString (s : Option String)
  | vPtrInt (k : IntKind) (n : Option Int)
  | vPtrFloat (k : FloatKind) (repr : Option String)
  | vPtrBool (b : Option Bool)
  | vPtrTime (repr : Option String)
  | vStringSlice (xs : List String)
  | vIntSlice (k : IntKind) (ns : List Int)
  | vFloatSlice (k : FloatKind) (reprs : List String)
  | vBoolSlice (bs : List Bool)
  | vTimeSlice (reprs : List String)
  | vOrderSlice (os : List Order)
  | vStruct (fields : GoFields)
  | vNilStruct
  | vPtrStructV (fields : GoFields)

/- One reflected struct field: Go field name, soql tag ("" if the field
   has no soql tag) and the field's value. -/
inductive GoField where
  | mk (name : String) (tag : String) (value : GoValue)

/- The ordered field list of a reflected struct. -/
inductive GoFields where
  | nil
  | cons (f : GoField) (rest : GoFields)
end

def GoField.name : GoField → String
  | .mk n _ _ => n

def GoField.tag : GoField → String
  | .mk _ t _ => t

def GoField.value : GoField → GoValue
  | .mk _ _ v => v

/- The error values of the package, plus two artifacts of the embedding:
   ErrOther stands for the anonymous errors.New values inside
   marshalIntValue, and RuntimePanic marks inputs on which the Go code
   would panic inside the reflect package (never reached from well-formed
   queries). -/
inductive GoErr where
  | ErrInvalidTag
  | ErrNilValue
  | ErrMultipleSelectClause
  | ErrNoSelectClause
  | ErrMultipleWhereClause
  | ErrInvalidOrderByClause
  | ErrMultipleOrderByClause
  | ErrInvalidSelectColumnOrderByClause
  | ErrInvalidLimitClause
  | ErrMultipleLimitClause
  | ErrInvalidOffsetClause
  | ErrMultipleOffsetClause
  | ErrOther (msg : String)
  | RuntimePanic
deriving DecidableEq, Repr

/- A structural depth measure used for termination of the recursive
   marshalling functions.  It counts constructors of the struct tree and
   ignores all scalar payloads. -/
mutual
def valDepth : GoValue → Nat
  | .vStruct fs => fieldsDepth fs + 1
  | .vPtrStructV fs => fieldsDepth fs + 2
  | _ => 1
def fieldsDepth : GoFields → Nat
  | .nil => 0
  | .cons (.mk _ _ v) rest => valDepth v + fieldsDepth rest + 1
end

/- The Go field list as a Lean list (used only to state theorems). -/
def fieldsList : GoFields → List GoField
  | .nil => []
  | .cons f rest => f :: fieldsList rest

/- strings.Split for a single-character separator (the marshaller only ever
   splits on "," and "="). -/
def splitOnCharAux (sep : Char) : List Char → List Char → List String
  | [], acc => [String.mk acc.reverse]
  | c :: cs, acc =>
    if c = sep then String.mk acc.reverse :: splitOnCharAux sep cs []
    else splitOnCharAux sep cs (c :: acc)

def splitOnChar (sep : Char) (s : String) : List String :=
  splitOnCharAux sep s.data []

/- Joins a list of strings with a separator; joinWith j [a, b] = a ++ j ++ b. -/
def joinWith (j : String) : List String → String
  | [] => ""
  | [x] => x
  | x :: xs => x ++ j ++ joinWith j xs

/- strings.ToLower, restricted to the ASCII folding the joiner values use. -/
def lowerAscii (s : String) : String :=
  String.mk (s.data.map Char.toLower)

/- strings.TrimSpace. -/
def goTrimSpace (s : String) : String :=
  String.mk (((s.data.dropWhile Char.isWhitespace).reverse.dropWhile
    Char.isWhitespace).reverse)

/- strings.TrimRight(s, ","). -/
def goTrimRightCommas (s : String) : String :=
  String.mk ((s.data.reverse.dropWhile (fun c => c = ',')).reverse)

/- The sanitizeReplacer: all patterns are single characters, so the
   replacer is a character-wise map.  The replacement strings are the Go
   constants safeSingleQuote .. safeFormFeed (a backslash followed by the
   letter of the escape). -/
def sanitizeChar (c : Char) : String :=
  if c = '\'' then "\\'"
  else if c = '"' then "\\\""
  else if c = '\\' then "\\\\"
  else if c = '\n' then "\\n"
  else if c = '\r' then "\\r"
  else if c = '\t' then "\\t"
  else if c = '\x08' then "\\b"
  else if c = '\x0c' then "\\f"
  else String.mk [c]

def sanitizeList : List Char → String
  | [] => ""
  | c :: cs => sanitizeChar c ++ sanitizeList cs

def sanitizeReplace (s : String) : String :=
  sanitizeList s.data

/- The sanitizeLikeReplacer: the same table extended with the SOQL
   wildcards "_" and "%". -/
def sanitizeLikeChar (c : Char) : String :=
  if c = '_' then "\\_"
  else if c = '%' then "\\%"
  else sanitizeChar c

def sanitizeLikeList : List Char → String
  | [] => ""
  | c :: cs => sanitizeLikeChar c ++ sanitizeLikeList cs

def sanitizeLikeReplace (s : String) : String :=
  sanitizeLikeList s.data

/- getClauseKey: the part of the tag before the first comma. -/
def getClauseKey (clauseTag : String) : String :=
  (splitOnChar ',' clauseTag).headD ""

/- getTagValue: scans the comma-separated items; an item without "=" is
   skipped; for an item key=value the last match wins. -/
def getTagValue (clauseTag key defaultValue : String) : String :=
  (splitOnChar ',' clauseTag).foldl
    (fun value tagItem =>
      match splitOnChar '=' tagItem with
      | [] => value
      | [_] => value
      | k :: rest => if k = key then joinWith "=" rest else value)
    defaultValue

def getFieldName (clauseTag defaultFieldName : String) : String :=
  getTagValue clauseTag "fieldName" defaultFieldName

def getTableName (clauseTag defaultTableName : String) : String :=
  getTagValue clauseTag "tableName" defaultTableName

/- getJoiner: the joiner tag value, lower-cased; "or", "and" and "" are
   the recognized values. -/
def getJoiner (clauseTag : String) : String × Option GoErr :=
  match lowerAscii (getTagValue clauseTag "joiner" "") with
  | "or" => (" OR ", none)
  | "and" => (" AND ", none)
  | "" => (" AND ", none)
  | _ => ("", some .ErrInvalidTag)

/- The body of the loop of constructLikeClause: the separator before every
   item past the first, then the (possibly NOT-wrapped) LIKE fragment. -/
def likeItems (fieldName : String) (exclude : Bool) :
    List String → Bool → String
  | [], _ => ""
  | pattern0 :: rest, isFirst =>
    (if isFirst then "" else if exclude then " AND " else " OR ") ++
    (if exclude then "(NOT " else "") ++
    fieldName ++ " LIKE '%" ++ sanitizeLikeReplace pattern0 ++ "%'" ++
    (if exclude then ")" else "") ++
    likeItems fieldName exclude rest false

/- constructLikeClause: only a []string passes the type assertion. -/
def constructLikeClause (v : GoValue) (fieldName : String) (exclude : Bool) :
    String × Option GoErr :=
  match v with
  | .vStringSlice patterns =>
    ((if 1 < patterns.length then "(" else "") ++
     likeItems fieldName exclude patterns true ++
     (if 1 < patterns.length then ")" else ""), none)
  | _ => ("", some .ErrInvalidTag)

def buildLikeClause (v : GoValue) (fieldName : String) : String × Option GoErr :=
  constructLikeClause v fieldName false

def buildNotLikeClause (v : GoValue) (fieldName : String) : String × Option GoErr :=
  constructLikeClause v fieldName true

/- The item loop of constructContainsClause: commas between items, single
   quotes (and escaping) only when the slice was a []string. -/
def containsItems (useSingleQuotes : Bool) : List String → Bool → String
  | [], _ => ""
  | item :: rest, isFirst =>
    (if isFirst then "" else ",") ++
    (if useSingleQuotes then "'" ++ sanitizeReplace item ++ "'" else item) ++
    containsItems useSingleQuotes rest false

/- constructContainsClause.  For the numeric and bool slices Go renders
   fmt.Sprint(u), trims "[]" and splits on spaces, which yields exactly the
   per-element decimal renderings; []time.Time elements are formatted with
   DateFormat and, like the numerics, are NOT single-quoted. -/
def constructContainsClause (v : GoValue) (fieldName operator : String) :
    String × Option GoErr :=
  match v with
  | .vStringSlice items =>
    (if items.isEmpty then ""
     else fieldName ++ operator ++ "(" ++ containsItems true items true ++ ")", none)
  | .vIntSlice _ ns =>
    (if ns.isEmpty then ""
     else fieldName ++ operator ++ "(" ++
       containsItems false (ns.map toString) true ++ ")", none)
  | .vFloatSlice _ rs =>
    (if rs.isEmpty then ""
     else fieldName ++ operator ++ "(" ++ containsItems false rs true ++ ")", none)
  | .vBoolSlice bs =>
    (if bs.isEmpty then ""
     else fieldName ++ operator ++ "(" ++
       containsItems false (bs.map toString) true ++ ")", none)
  | .vTimeSlice ts =>
    (if ts.isEmpty then ""
     else fieldName ++ operator ++ "(" ++ containsItems false ts true ++ ")", none)
  | _ => ("", some .ErrInvalidTag)

def buildInClause (v : GoValue) (fieldName : String) : String × Option GoErr :=
  constructContainsClause v fieldName " IN "

def buildNotInClause (v : GoValue) (fieldName : String) : String × Option GoErr :=
  constructContainsClause v fieldName " NOT IN "

/- The tail of constructComparisonClause once the textual value is known:
   an empty value contributes nothing, a string value is quoted and
   escaped, every other value is emitted bare. -/
def renderComparison (fieldName operator value : String)
    (useSingleQuotes : Bool) : String :=
  if value = "" then ""
  else if useSingleQuotes then
    fieldName ++ operator ++ "'" ++ sanitizeReplace value ++ "'"
  else fieldName ++ operator ++ value

/- constructComparisonClause.  The pointer cases of the Go type switch
   cover *int .. *bool and *time.Time but NOT *string, which therefore
   falls through to the default case and ErrInvalidTag. -/
def constructComparisonClause (v : GoValue) (fieldName operator : String) :
    String × Option GoErr :=
  match v with
  | .vString s => (renderComparison fieldName operator s true, none)
  | .vInt _ n => (renderComparison fieldName operator (toString n) false, none)
  | .vFloat _ r => (renderComparison fieldName operator r false, none)
  | .vBool b => (renderComparison fieldName operator (toString b) false, none)
  | .vTime r => (renderComparison fieldName operator r false, none)
  | .vPtrInt _ none => ("", none)
  | .vPtrInt _ (some n) =>
    (renderComparison fieldName operator (toString n) false, none)
  | .vPtrFloat _ none => ("", none)
  | .vPtrFloat _ (some r) => (renderComparison fieldName operator r false, none)
  | .vPtrBool none => ("", none)
  | .vPtrBool (some b) =>
    (renderComparison fieldName operator (toString b) false, none)
  | .vPtrTime none => ("", none)
  | .vPtrTime (some r) => (renderComparison fieldName operator r false, none)
  | _ => ("", some .ErrInvalidTag)

def buildNotEqualsClause (v : GoValue) (fieldName : String) : String × Option GoErr :=
  constructComparisonClause v fieldName " != "

def buildEqualsClause (v : GoValue) (fieldName : String) : String × Option GoErr :=
  constructComparisonClause v fieldName " = "

def buildGreaterThanClause (v : GoValue) (fieldName : String) : String × Option GoErr :=
  constructComparisonClause v fieldName " > "

def buildGreaterThanOrEqualsToClause (v : GoValue) (fieldName : String) :
    String × Option GoErr :=
  constructComparisonClause v fieldName " >= "

def buildLessThanClause (v : GoValue) (fieldName : String) : String × Option GoErr :=
  constructComparisonClause v fieldName " < "

def buildLessThanOrEqualsToClause (v : GoValue) (fieldName : String) :
    String × Option GoErr :=
  constructComparisonClause v fieldName " <= "

/- constructDateLiteralsClause: only the integer kinds and their pointers
   are accepted; there is no string/float/bool/time case. -/
def constructDateLiteralsClause (v : GoValue) (fieldName operator : String) :
    String × Option GoErr :=
  match v with
  | .vInt _ n => (renderComparison fieldName operator (toString n) false, none)
  | .vPtrInt _ none => ("", none)
  | .vPtrInt _ (some n) =>
    (renderComparison fieldName operator (toString n) false, none)
  | _ => ("", some .ErrInvalidTag)

def buildGreaterNextNDaysOperator (v : GoValue) (fieldName : String) :
    String × Option GoErr :=
  constructDateLiteralsClause v fieldName " > NEXT_N_DAYS:"

def buildGreaterOrEqualNextNDaysOperator (v : GoValue) (fieldName : String) :
    String × Option GoErr :=
  constructDateLiteralsClause v fieldName " >= NEXT_N_DAYS:"

def buildEqualsNextNDaysOperator (v : GoValue) (fieldName : String) :
    String × Option GoErr :=
  constructDateLiteralsClause v fieldName " = NEXT_N_DAYS:"

def buildLessNextNDaysOperator (v : GoValue) (fieldName : String) :
    String × Option GoErr :=
  constructDateLiteralsClause v fieldName " < NEXT_N_DAYS:"

/- NOTE: unlike its nine siblings, the source's buildLessOrEqualNextNDaysOperator
   calls constructComparisonClause, not constructDateLiteralsClause. -/
def buildLessOrEqualNextNDaysOperator (v : GoValue) (fieldName : String) :
    String × Option GoErr :=
  constructComparisonClause v fieldName " <= NEXT_N_DAYS:"

def buildGreaterLastNDaysOperator (v : GoValue) (fieldName : String) :
    String × Option GoErr :=
  constructDateLiteralsClause v fieldName " > LAST_N_DAYS:"

def buildGreaterOrEqualLastNDaysOperator (v : GoValue) (fieldName : String) :
    String × Option GoErr :=
  constructDateLiteralsClause v fieldName " >= LAST_N_DAYS:"

def buildEqualsLastNDaysOperator (v : GoValue) (fieldName : String) :
    String × Option GoErr :=
  constructDateLiteralsClause v fieldName " = LAST_N_DAYS:"

def buildLessLastNDaysOperator (v : GoValue) (fieldName : String) :
    String × Option GoErr :=
  constructDateLiteralsClause v fieldName " < LAST_N_DAYS:"

def buildLessOrEqualLastNDaysOperator (v : GoValue) (fieldName : String) :
    String × Option GoErr :=
  constructDateLiteralsClause v fieldName " <= LAST_N_DAYS:"

/- buildNullClause: a nil pointer of any type is "no opinion" (empty
   fragment, no error); after dereferencing, only a bool is accepted. -/
def buildNullClause (v : GoValue) (fieldName : String) : String × Option GoErr :=
  match v with
  | .vPtrString none | .vPtrInt _ none | .vPtrFloat _ none | .vPtrBool none
  | .vPtrTime none | .vNilStruct => ("", none)
  | .vBool b | .vPtrBool (some b) =>
    if b then (fieldName ++ " = null", none)
    else (fieldName ++ " != null", none)
  | _ => ("", some .ErrInvalidTag)

/- clauseBuilderMap, as a lookup from the clause key to the builder. -/
def clauseBuilderMap (key : String) :
    Option (GoValue → String → String × Option GoErr) :=
  match key with
  | "likeOperator" => some buildLikeClause
  | "notLikeOperator" => some buildNotLikeClause
  | "inOperator" => some buildInClause
  | "notInOperator" => some buildNotInClause
  | "equalsOperator" => some buildEqualsClause
  | "nullOperator" => some buildNullClause
  | "notEqualsOperator" => some buildNotEqualsClause
  | "greaterThanOperator" => some buildGreaterThanClause
  | "greaterThanOrEqualsToOperator" => some buildGreaterThanOrEqualsToClause
  | "lessThanOperator" => some buildLessThanClause
  | "lessThanOrEqualsToOperator" => some buildLessThanOrEqualsToClause
  | "greaterNextNDaysOperator" => some buildGreaterNextNDaysOperator
  | "greaterOrEqualNextNDaysOperator" => some buildGreaterOrEqualNextNDaysOperator
  | "equalsNextNDaysOperator" => some buildEqualsNextNDaysOperator
  | "lessNextNDaysOperator" => some buildLessNextNDaysOperator
  | "lessOrEqualNextNDaysOperator" => some buildLessOrEqualNextNDaysOperator
  | "greaterLastNDaysOperator" => some buildGreaterLastNDaysOperator
  | "greaterOrEqualLastNDaysOperator" => some buildGreaterOrEqualLastNDaysOperator
  | "equalsLastNDaysOperator" => some buildEqualsLastNDaysOperator
  | "lessLastNDaysOperator" => some buildLessLastNDaysOperator
  | "lessOrEqualLastNDaysOperator" => some buildLessOrEqualLastNDaysOperator
  | _ => none

mutual
/- marshalWhereClause: getReflectedValueAndType dereferences a pointer
   (nil yields ErrNilValue), then the code iterates the struct fields.
   time.Time has struct kind but only unexported, untagged fields, so its
   first field reaches the failed builder lookup for the empty clause key;
   any other non-struct value makes reflectedValue.NumField() panic. -/
def marshalWhereClause (v : GoValue) (tableName joiner : String) :
    String × Option GoErr :=
  match v with
  | .vPtrString none | .vPtrInt _ none | .vPtrFloat _ none | .vPtrBool none
  | .vPtrTime none | .vNilStruct => ("", some .ErrNilValue)
  | .vStruct fs => whereLoop fs tableName joiner "" false
  | .vPtrStructV fs => whereLoop fs tableName joiner "" false
  | .vTime _ | .vPtrTime (some _) => ("", some .ErrInvalidTag)
  | _ => ("", some .RuntimePanic)

/- The field loop of marshalWhereClause: non-empty partial clauses are
   appended, preceded by the joiner when a previous condition exists. -/
def whereLoop (fs : GoFields) (tableName joiner buff : String) (prev : Bool) :
    String × Option GoErr :=
  match fs with
  | .nil => (buff, none)
  | .cons f rest =>
    match wherePartial f tableName with
    | (_, some e) => ("", some e)
    | (partialClause, none) =>
      if partialClause = "" then whereLoop rest tableName joiner buff prev
      else
        whereLoop rest tableName joiner
          (buff ++ (if prev then joiner else "") ++ partialClause) true

/- The partial clause of one field of a criteria struct: the subquery
   case wraps the recursively marshalled subgroup in parentheses (a nil
   pointer subgroup is skipped, modelled as the empty partial clause);
   otherwise the clause key selects the builder. -/
def wherePartial (f : GoField) (tableName : String) : String × Option GoErr :=
  match f with
  | .mk fname tag value =>
    if getClauseKey tag = "subquery" then
      match value with
      | .vNilStruct | .vPtrString none | .vPtrInt _ none | .vPtrFloat _ none
      | .vPtrBool none | .vPtrTime none => ("", none)
      | .vStruct _ | .vPtrStructV _ | .vTime _ | .vPtrString (some _)
      | .vPtrInt _ (some _) | .vPtrFloat _ (some _) | .vPtrBool (some _)
      | .vPtrTime (some _) =>
        match getJoiner tag with
        | (_, some e) => ("", some e)
        | (j, none) =>
          match marshalWhereClause value tableName j with
          | (_, some e) => ("", some e)
          | (sub, none) => ("(" ++ sub ++ ")", none)
      | _ => ("", some .ErrInvalidTag)
    else
      if getFieldName tag fname = "" then ("", some .ErrInvalidTag)
      else
        match clauseBuilderMap (getClauseKey tag) with
        | none => ("", some .ErrInvalidTag)
        | some fn =>
          fn value
            (if tableName = "" then getFieldName tag fname
             else tableName ++ "." ++ getFieldName tag fname)
end

/- MarshalWhereClause: the exported entry point always joins the root
   fields with " AND ". -/
def MarshalWhereClause (v : GoValue) : String × Option GoErr :=
  marshalWhereClause v "" " AND "

/- Go map assignment and lookup for the column-name mappings (keys stay
   unique, assignment to an existing key overwrites it). -/
def mapPut (m : List (String × String)) (k v : String) : List (String × String) :=
  if m.any (fun p => p.1 == k) then
    m.map (fun p => if p.1 == k then (k, v) else p)
  else m ++ [(k, v)]

def mapGet (m : List (String × String)) (k : String) : Option String :=
  (m.find? (fun p => p.1 == k)).map (fun p => p.2)

/- mapSelectColumns: collects, for every selectColumn field (recursively
   through nested struct fields), the mapping from the struct field path
   to the soql field name path.  The Go error return is only reachable
   through a nil-pointer argument, which no call site can produce, so the
   embedding returns the mappings directly.  A time.Time field has struct
   kind; recursing into it adds nothing because its fields carry no tags. -/
def mapSelectColumns (fs : GoFields) (parent gusParent : String)
    (m : List (String × String)) : List (String × String) :=
  match fs with
  | .nil => m
  | .cons (.mk name tag value) rest =>
    if tag = "" then mapSelectColumns rest parent gusParent m
    else if getClauseKey tag ≠ "selectColumn" then
      mapSelectColumns rest parent gusParent m
    else
      let fieldName := if parent = "" then name else parent ++ "." ++ name
      let gusFieldName :=
        if parent = "" then getFieldName tag name
        else gusParent ++ "." ++ getFieldName tag name
      let m1 := mapPut m fieldName gusFieldName
      let m2 :=
        match value with
        | .vStruct innerFs => mapSelectColumns innerFs fieldName gusFieldName m1
        | _ => m1
      mapSelectColumns rest parent gusParent m2

/- The order-entry loop of marshalOrderByClause. -/
def orderLoop (orders : List Order) (columnMappings : List (String × String))
    (tableName buff : String) (prev : Bool) : String × Option GoErr :=
  match orders with
  | [] => (buff, none)
  | o :: rest =>
    if goTrimSpace o.Field = "" then ("", some .ErrInvalidOrderByClause)
    else
      match mapGet columnMappings o.Field with
      | none => ("", some .ErrInvalidOrderByClause)
      | some columnName =>
        orderLoop rest columnMappings tableName
          (buff ++ (if prev then "," else "") ++
           (if tableName = "" then columnName
            else tableName ++ "." ++ columnName) ++
           (if o.IsDesc then " DESC" else " ASC"))
          true

/- marshalOrderByClause: v must dereference to a []Order, s to a struct;
   an empty column mapping is ErrInvalidSelectColumnOrderByClause even
   before the order entries are examined. -/
def marshalOrderByClause (v : GoValue) (tableName : String) (s : GoValue) :
    String × Option GoErr :=
  match v with
  | .vPtrString none | .vPtrInt _ none | .vPtrFloat _ none | .vPtrBool none
  | .vPtrTime none | .vNilStruct => ("", some .ErrNilValue)
  | .vOrderSlice orders =>
    match s with
    | .vPtrString none | .vPtrInt _ none | .vPtrFloat _ none | .vPtrBool none
    | .vPtrTime none | .vNilStruct => ("", some .ErrNilValue)
    | .vStruct sfs | .vPtrStructV sfs =>
      let columnMappings := mapSelectColumns sfs "" "" []
      if columnMappings.length = 0 then
        ("", some .ErrInvalidSelectColumnOrderByClause)
      else orderLoop orders columnMappings tableName "" false
    | .vTime _ | .vPtrTime (some _) =>
      -- struct kind, but no tagged fields: the column mapping stays empty
      ("", some .ErrInvalidSelectColumnOrderByClause)
    | _ => ("", some .ErrInvalidSelectColumnOrderByClause)
  | _ => ("", some .ErrInvalidOrderByClause)

/- MarshalOrderByClause: the exported entry point, with no table prefix. -/
def MarshalOrderByClause (v : GoValue) (s : GoValue) : String × Option GoErr :=
  marshalOrderByClause v "" s

/- marshalIntValue: only a *int passes the type assertion; nil is "clause
   omitted"; a negative value is an error.  The two anonymous errors.New
   values are carried as ErrOther. -/
def marshalIntValue (v : GoValue) : String × Option GoErr :=
  match v with
  | .vPtrInt .i none => ("", none)
  | .vPtrInt .i (some n) =>
    if n < 0 then ("", some (.ErrOther "invalid value"))
    else (toString n, none)
  | _ => ("", some (.ErrOther "invalid type"))

def marshalLimitClause (v : GoValue) : String × Option GoErr :=
  match marshalIntValue v with
  | (_, some _) => ("", some .ErrInvalidLimitClause)
  | (s, none) => (s, none)

def marshalOffsetClause (v : GoValue) : String × Option GoErr :=
  match marshalIntValue v with
  | (_, some _) => ("", some .ErrInvalidOffsetClause)
  | (s, none) => (s, none)

/- The zero time.Time rendered through Format(DateFormat). -/
def goZeroTime : String := "0001-01-01T00:00:00.000+0000"

mutual
/- The zero value of the Go type of a value: reflect.New(field.Type).Elem().
   fmt.Sprint of the zero float is "0"; pointers and slices zero to nil. -/
def zeroValue : GoValue → GoValue
  | .vString _ => .vString ""
  | .vInt k _ => .vInt k 0
  | .vFloat k _ => .vFloat k "0"
  | .vBool _ => .vBool false
  | .vTime _ => .vTime goZeroTime
  | .vPtrString _ => .vPtrString none
  | .vPtrInt k _ => .vPtrInt k none
  | .vPtrFloat k _ => .vPtrFloat k none
  | .vPtrBool _ => .vPtrBool none
  | .vPtrTime _ => .vPtrTime none
  | .vStringSlice _ => .vStringSlice []
  | .vIntSlice k _ => .vIntSlice k []
  | .vFloatSlice k _ => .vFloatSlice k []
  | .vBoolSlice _ => .vBoolSlice []
  | .vTimeSlice _ => .vTimeSlice []
  | .vOrderSlice _ => .vOrderSlice []
  | .vStruct fs => .vStruct (zeroFields fs)
  | .vNilStruct => .vNilStruct
  | .vPtrStructV _ => .vNilStruct
def zeroFields : GoFields → GoFields
  | .nil => .nil
  | .cons (.mk n t v) rest => .cons (.mk n t (zeroValue v)) (zeroFields rest)
end

mutual
theorem zeroValue_depth (v : GoValue) : valDepth (zeroValue v) ≤ valDepth v := by
  cases v <;> simp [zeroValue, valDepth] <;> exact zeroFields_depth _
theorem zeroFields_depth (fs : GoFields) :
    fieldsDepth (zeroFields fs) ≤ fieldsDepth fs := by
  cases fs with
  | nil => simp [zeroFields]
  | cons f rest =>
    cases f with
    | mk n t v =>
      have h1 := zeroValue_depth v
      have h2 := zeroFields_depth rest
      simp [zeroFields, fieldsDepth]
      omega
end

/- Depth facts used by the termination proofs below. -/
theorem depth_zero_sel (innerFs rest : GoFields) (n t : String) :
    valDepth (GoValue.vStruct (zeroFields innerFs)) <
    fieldsDepth (GoFields.cons (GoField.mk n t (GoValue.vStruct innerFs)) rest) := by
  have h := zeroFields_depth innerFs
  simp [valDepth, fieldsDepth]
  omega

/- The local state of the field loop of marshal. -/
structure MarshalState where
  soqlTagPresent : Bool := false
  selectClausePresent : Bool := false
  whereClausePresent : Bool := false
  orderByClausePresent : Bool := false
  limitClausePresent : Bool := false
  offsetClausePresent : Bool := false
  selectSubString : String := ""
  selectValue : Option GoValue := none
  whereValue : Option GoValue := none
  whereJoiner : String := ""
  orderByValue : Option GoValue := none
  limitValue : Option GoValue := none
  offsetValue : Option GoValue := none
  tableName : String := ""

/- The tail of marshal after its field loop: braces for a child relation,
   the select clause, then WHERE / ORDER BY / LIMIT / OFFSET, each omitted
   when its rendered text is empty.  Go recomputes relationName per clause
   with the same value; the stored optional values are present whenever
   the corresponding flag is set, so the none branches (nil interface
   values, on which reflect would panic or the type assertion fail) are
   unreachable. -/
def marshalAssemble (st : MarshalState) (childRelationName : String) :
    String × Option GoErr :=
  let relationName := if childRelationName = "" then "" else st.tableName
  let resWhere : String × Option GoErr :=
    if st.whereClausePresent then
      match st.whereValue with
      | some wv => marshalWhereClause wv relationName st.whereJoiner
      | none => ("", some .RuntimePanic)
    else ("", none)
  match resWhere with
  | (_, some e) => ("", some e)
  | (whereStr, none) =>
    let resOrder : String × Option GoErr :=
      if st.orderByClausePresent then
        match st.orderByValue, st.selectValue with
        | some ov, some sv => marshalOrderByClause ov relationName sv
        | _, _ => ("", some .RuntimePanic)
      else ("", none)
    match resOrder with
    | (_, some e) => ("", some e)
    | (orderStr, none) =>
      let resLimit : String × Option GoErr :=
        if st.limitClausePresent then
          match st.limitValue with
          | some lv => marshalLimitClause lv
          | none => ("", some .ErrInvalidLimitClause)
        else ("", none)
      match resLimit with
      | (_, some e) => ("", some e)
      | (limitStr, none) =>
        let resOffset : String × Option GoErr :=
          if st.offsetClausePresent then
            match st.offsetValue with
            | some ov => marshalOffsetClause ov
            | none => ("", some .ErrInvalidOffsetClause)
          else ("", none)
        match resOffset with
        | (_, some e) => ("", some e)
        | (offsetStr, none) =>
          ((if childRelationName = "" then "" else "(") ++
           st.selectSubString ++
           (if whereStr = "" then "" else " WHERE " ++ whereStr) ++
           (if orderStr = "" then "" else " ORDER BY " ++ orderStr) ++
           (if limitStr = "" then "" else " LIMIT " ++ limitStr) ++
           (if offsetStr = "" then "" else " OFFSET " ++ offsetStr) ++
           (if childRelationName = "" then "" else ")"), none)

mutual
/- marshal: only struct kinds are marshalled; a non-struct under a child
   relation name is ErrInvalidTag, a top-level non-struct yields "".
   time.Time has struct kind but only untagged fields, so for it the loop
   finds no soql tags and only the child braces are emitted. -/
def marshal (v : GoValue) (childRelationName : String) :
    String × Option GoErr :=
  match v with
  | .vStruct .nil => ("", none)
  | .vStruct fs =>
    match marshalLoop fs childRelationName {} with
    | .error e => ("", some e)
    | .ok st =>
      if !st.selectClausePresent && st.soqlTagPresent then
        ("", some .ErrNoSelectClause)
      else marshalAssemble st childRelationName
  | .vTime _ =>
    if childRelationName = "" then ("", none) else ("()", none)
  | _ =>
    if childRelationName ≠ "" then ("", some .ErrInvalidTag)
    else ("", none)
termination_by valDepth v
decreasing_by
  all_goals first
  | apply depth_zero_sel
  | (simp [valDepth, fieldsDepth] <;> omega)

/- The field loop of marshal: classifies each tagged field by clause key,
   errors on a duplicate root role, and records values and flags.  The
   select clause is rendered inside the loop. -/
def marshalLoop (fs : GoFields) (childRelationName : String)
    (st : MarshalState) : Except GoErr MarshalState :=
  match fs with
  | .nil => .ok st
  | .cons (.mk fname tag value) rest =>
    if tag = "" then marshalLoop rest childRelationName st
    else
      let st := { st with soqlTagPresent := true }
      if getClauseKey tag = "selectClause" then
        if st.selectClausePresent then .error .ErrMultipleSelectClause
        else
          let tableName := getTableName tag fname
          match MarshalSelectClause value
              (if childRelationName = "" then "" else tableName) with
          | (_, some e) => .error e
          | (subStr, none) =>
            marshalLoop rest childRelationName
              { st with selectClausePresent := true,
                        selectValue := some value,
                        tableName := tableName,
                        selectSubString :=
                          "SELECT " ++ subStr ++ " FROM " ++
                          (if childRelationName = "" then tableName
                           else childRelationName) }
      else if getClauseKey tag = "whereClause" then
        if st.whereClausePresent then .error .ErrMultipleWhereClause
        else
          match getJoiner tag with
          | (_, some e) => .error e
          | (j, none) =>
            marshalLoop rest childRelationName
              { st with whereClausePresent := true,
                        whereValue := some value, whereJoiner := j }
      else if getClauseKey tag = "orderByClause" then
        if st.orderByClausePresent then .error .ErrMultipleOrderByClause
        else
          marshalLoop rest childRelationName
            { st with orderByClausePresent := true, orderByValue := some value }
      else if getClauseKey tag = "limitClause" then
        if st.limitClausePresent then .error .ErrMultipleLimitClause
        else
          marshalLoop rest childRelationName
            { st with limitClausePresent := true, limitValue := some value }
      else if getClauseKey tag = "offsetClause" then
        if st.offsetClausePresent then .error .ErrMultipleOffsetClause
        else
          marshalLoop rest childRelationName
            { st with offsetClausePresent := true, offsetValue := some value }
      else .error .ErrInvalidTag
termination_by fieldsDepth fs
decreasing_by
  all_goals first
  | apply depth_zero_sel
  | (simp [valDepth, fieldsDepth] <;> omega)

/- MarshalSelectClause: dereferences (nil is ErrNilValue), requires a
   struct kind, walks the fields and finally trims the trailing commas.
   time.Time is a struct whose fields carry no tags, so its loop finds
   nothing and yields the empty select list. -/
def MarshalSelectClause (v : GoValue) (relationShipName : String) :
    String × Option GoErr :=
  match v with
  | .vPtrString none | .vPtrInt _ none | .vPtrFloat _ none | .vPtrBool none
  | .vPtrTime none | .vNilStruct => ("", some .ErrNilValue)
  | .vStruct fs | .vPtrStructV fs =>
    match selectLoop fs
        (if relationShipName = "" then relationShipName
         else relationShipName ++ ".") "" with
    | (_, some e) => ("", some e)
    | (buff, none) => (goTrimRightCommas buff, none)
  | .vTime _ | .vPtrTime (some _) => ("", none)
  | _ => ("", some .ErrInvalidTag)
termination_by valDepth v
decreasing_by
  all_goals first
  | apply depth_zero_sel
  | (simp [valDepth, fieldsDepth] <;> omega)

/- The field loop of MarshalSelectClause: an untagged field is skipped
   (no comma); a selectColumn field of struct type recurses on the ZERO
   value of its type with the extended prefix; a scalar selectColumn
   field emits prefix plus field name; a selectChild field re-enters
   marshal with the accumulated relationship name; every processed field
   appends a comma. -/
def selectLoop (fs : GoFields) (pfx buff : String) : String × Option GoErr :=
  match fs with
  | .nil => (buff, none)
  | .cons (.mk fname tag value) rest =>
    if tag = "" then selectLoop rest pfx buff
    else if getClauseKey tag = "selectColumn" then
      if getFieldName tag fname = "" then ("", some .ErrInvalidTag)
      else
        match value with
        | .vStruct innerFs =>
          match MarshalSelectClause (.vStruct (zeroFields innerFs))
              (pfx ++ getFieldName tag fname) with
          | (_, some e) => ("", some e)
          | (subStr, none) => selectLoop rest pfx (buff ++ subStr ++ ",")
        | .vTime _ =>
          -- recursion over the zero time.Time emits no columns
          selectLoop rest pfx (buff ++ ",")
        | _ => selectLoop rest pfx (buff ++ pfx ++ getFieldName tag fname ++ ",")
    else if getClauseKey tag = "selectChild" then
      if getFieldName tag fname = "" then ("", some .ErrInvalidTag)
      else
        match marshal value (pfx ++ getFieldName tag fname) with
        | (_, some e) => ("", some e)
        | (subStr, none) => selectLoop rest pfx (buff ++ subStr ++ ",")
    else ("", some .ErrInvalidTag)
termination_by fieldsDepth fs
decreasing_by
  all_goals first
  | apply depth_zero_sel
  | (simp [valDepth, fieldsDepth] <;> omega)
end

/- Marshal: dereferences the argument (nil is ErrNilValue) and marshals
   it with no child relation name. -/
def Marshal (v : GoValue) : String × Option GoErr :=
  match v with
  | .vPtrString none | .vPtrInt _ none | .vPtrFloat _ none | .vPtrBool none
  | .vPtrTime none | .vNilStruct => ("", some .ErrNilValue)
  | .vPtrStructV fs => marshal (.vStruct fs) ""
  | .vPtrString (some s) => marshal (.vString s) ""
  | .vPtrInt k (some n) => marshal (.vInt k n) ""
  | .vPtrFloat k (some r) => marshal (.vFloat k r) ""
  | .vPtrBool (some b) => marshal (.vBool b) ""
  | .vPtrTime (some r) => marshal (.vTime r) ""
  | w => marshal w ""

/- ===== Spec-side helper definitions, used to state the theorems ===== -/

/- The LIKE fragment of one pattern, as the spec words it. -/
def likeFrag (fieldName p : String) : String :=
  fieldName ++ " LIKE '%" ++ sanitizeLikeReplace p ++ "%'"

/- The individually wrapped NOT LIKE fragment of one pattern. -/
def notLikeFrag (fieldName p : String) : String :=
  "(NOT " ++ likeFrag fieldName p ++ ")"

/- True when no field of the list is tagged selectColumn. -/
def noSelectColumn : GoFields → Bool
  | .nil => true
  | .cons f rest =>
    (decide (getClauseKey f.tag ≠ "selectColumn")) && noSelectColumn rest

/- A sample criteria struct used by witnesses. -/
def sampleCriteria : GoFields :=
  .cons (.mk "AssetType" "equalsOperator,fieldName=Asset_Type__c"
    (.vString "SERVER"))
  (.cons (.mk "Num" "greaterThanOperator,fieldName=Num_of_CPU_Cores__c"
    (.vInt .i 16))
  (.cons (.mk "Absent" "lessThanOperator,fieldName=Unused__c"
    (.vPtrInt .i none)) .nil))

/- The non-empty partial clauses of the fields of a criteria struct. -/
def nonEmptyPartials (fs : GoFields) (tableName : String) : List String :=
  ((fieldsList fs).map (fun f => (wherePartial f tableName).1)).filter
    (fun s => s ≠ "")

/- A criteria struct whose single condition is an absent optional. -/
def sampleEmptyCrit : GoFields :=
  .cons (.mk "X" "equalsOperator,fieldName=X__c" (.vPtrInt .i none)) .nil

/- A subquery field holding that empty-compiling criteria. -/
def sampleSubgroupField : GoField :=
  .mk "SubGroup" "subquery,joiner=OR" (.vStruct sampleEmptyCrit)

/- The select shape and criteria of Scenario C. -/
def scenarioChildShape : GoFields :=
  .cons (.mk "Version" "selectColumn,fieldName=Version__c" (.vString "")) .nil

def scenarioChildCrit : GoFields :=
  .cons (.mk "Name" "equalsOperator,fieldName=Name__c"
    (.vString "sfdc-release")) .nil

/- ===== Theorems ===== -/

/-- Claim C6: for every comparison operator, a non-pointer empty string
value yields the empty fragment with no error (the condition is silently
omitted), while the non-pointer numeric zero values and the bool false ARE
rendered as field-operator-0 and field-operator-false. -/
theorem claimC6 (fieldName operator : String) (k : IntKind) (fk : FloatKind) :
    constructComparisonClause (.vString "") fieldName operator = ("", none) ∧
    constructComparisonClause (.vInt k 0) fieldName operator =
      (fieldName ++ operator ++ "0", none) ∧
    constructComparisonClause (.vBool false) fieldName operator =
      (fieldName ++ operator ++ "false", none) ∧
    constructComparisonClause (.vFloat fk "0") fieldName operator =
      (fieldName ++ operator ++ "0", none) :=
  ⟨rfl, rfl, rfl, rfl⟩

/-- Claim C2, counterexample: contrary to the claim, the pointer form of a
string is NOT accepted by the comparison builders: a nil *string does not
produce the empty fragment without error, and a non-nil *string does not
render like the plain string; both are ErrInvalidTag. -/
theorem claimC2_counterexample :
    buildEqualsClause (.vPtrString none) "A" = ("", some .ErrInvalidTag) ∧
    buildEqualsClause (.vPtrString (some "x")) "A" = ("", some .ErrInvalidTag) ∧
    buildEqualsClause (.vString "x") "A" = ("A = 'x'", none) := by
  refine ⟨rfl, rfl, ?_⟩
  decide

/-- Claim C2 as amended: for the six comparison builders (all instances of
constructComparisonClause with their operator text), the integer kinds of
every width, float32/float64, bool and date-time are accepted in pointer
form — nil yields the empty fragment with no error, non-nil renders
exactly as the non-pointer value — but a *string (nil or not) yields
ErrInvalidTag; only the plain string form is accepted. -/
theorem claimC2_amended (fieldName operator : String) (k : IntKind) (n : Int)
    (fk : FloatKind) (fr : String) (b : Bool) (tr : String)
    (so : Option String) (v : GoValue) :
    constructComparisonClause (.vPtrInt k none) fieldName operator = ("", none) ∧
    constructComparisonClause (.vPtrFloat fk none) fieldName operator = ("", none) ∧
    constructComparisonClause (.vPtrBool none) fieldName operator = ("", none) ∧
    constructComparisonClause (.vPtrTime none) fieldName operator = ("", none) ∧
    constructComparisonClause (.vPtrInt k (some n)) fieldName operator =
      constructComparisonClause (.vInt k n) fieldName operator ∧
    constructComparisonClause (.vPtrFloat fk (some fr)) fieldName operator =
      constructComparisonClause (.vFloat fk fr) fieldName operator ∧
    constructComparisonClause (.vPtrBool (some b)) fieldName operator =
      constructComparisonClause (.vBool b) fieldName operator ∧
    constructComparisonClause (.vPtrTime (some tr)) fieldName operator =
      constructComparisonClause (.vTime tr) fieldName operator ∧
    constructComparisonClause (.vPtrString so) fieldName operator =
      ("", some .ErrInvalidTag) ∧
    buildEqualsClause v fieldName = constructComparisonClause v fieldName " = " ∧
    buildNotEqualsClause v fieldName =
      constructComparisonClause v fieldName " != " ∧
    buildGreaterThanClause v fieldName =
      constructComparisonClause v fieldName " > " ∧
    buildGreaterThanOrEqualsToClause v fieldName =
      constructComparisonClause v fieldName " >= " ∧
    buildLessThanClause v fieldName =
      constructComparisonClause v fieldName " < " ∧
    buildLessThanOrEqualsToClause v fieldName =
      constructComparisonClause v fieldName " <= " := by
  refine ⟨rfl, rfl, rfl, rfl, rfl, rfl, rfl, rfl, ?_, rfl, rfl, rfl, rfl, rfl, rfl⟩
  cases so <;> rfl

/-- Claim C3: the code diverges from the claim on the lessOrEqualNextNDays
operator, whose builder calls constructComparisonClause instead of
constructDateLiteralsClause: non-integer values (bool, string, ...) are
accepted and rendered instead of producing ErrInvalidTag, while every
sibling relative-date builder rejects them; integers still render as the
claim says. -/
theorem claimC3_divergence :
    buildLessOrEqualNextNDaysOperator (.vBool true) "CreatedDate" =
      ("CreatedDate <= NEXT_N_DAYS:true", none) ∧
    buildLessOrEqualNextNDaysOperator (.vString "x") "CreatedDate" =
      ("CreatedDate <= NEXT_N_DAYS:'x'", none) ∧
    buildLessNextNDaysOperator (.vBool true) "CreatedDate" =
      ("", some .ErrInvalidTag) ∧
    buildLessOrEqualLastNDaysOperator (.vBool true) "CreatedDate" =
      ("", some .ErrInvalidTag) ∧
    buildGreaterNextNDaysOperator (.vBool true) "CreatedDate" =
      ("", some .ErrInvalidTag) ∧
    buildLessOrEqualNextNDaysOperator (.vInt .i 5) "CreatedDate" =
      ("CreatedDate <= NEXT_N_DAYS:5", none) ∧
    buildLessOrEqualNextNDaysOperator (.vPtrInt .i none) "CreatedDate" =
      ("", none) := by
  decide

/- The per-pattern fragment emitted by likeItems. -/
theorem likeItems_rest (fieldName : String) (exclude : Bool) (ps : List String) :
    likeItems fieldName exclude ps false =
      (if ps.isEmpty then ""
       else (if exclude then " AND " else " OR ") ++
         joinWith (if exclude then " AND " else " OR ")
           (ps.map (fun p =>
             if exclude then notLikeFrag fieldName p
             else likeFrag fieldName p))) := by
  induction ps with
  | nil => simp [likeItems]
  | cons p rest ih =>
    cases rest with
    | nil =>
      apply String.ext
      cases exclude <;>
        simp [likeItems, joinWith, notLikeFrag, likeFrag, String.data_append]
    | cons q qs =>
      rw [likeItems, ih]
      apply String.ext
      cases exclude <;>
        simp [joinWith, notLikeFrag, likeFrag, String.data_append]

theorem likeItems_join (fieldName : String) (exclude : Bool) (ps : List String) :
    likeItems fieldName exclude ps true =
      joinWith (if exclude then " AND " else " OR ")
        (ps.map (fun p =>
          if exclude then notLikeFrag fieldName p else likeFrag fieldName p)) := by
  cases ps with
  | nil => simp [likeItems, joinWith]
  | cons p rest =>
    rw [likeItems, likeItems_rest]
    apply String.ext
    cases rest with
    | nil =>
      cases exclude <;>
        simp [joinWith, notLikeFrag, likeFrag, String.data_append]
    | cons q qs =>
      cases exclude <;>
        simp [joinWith, notLikeFrag, likeFrag, String.data_append]

theorem likeItems_join_like (fieldName : String) (ps : List String) :
    likeItems fieldName false ps true =
      joinWith " OR " (ps.map (likeFrag fieldName)) := by
  simpa using likeItems_join fieldName false ps

theorem likeItems_join_notLike (fieldName : String) (ps : List String) :
    likeItems fieldName true ps true =
      joinWith " AND " (ps.map (notLikeFrag fieldName)) := by
  simpa using likeItems_join fieldName true ps

/-- Claim C4: like-patterns each render as field LIKE with the escaped
pattern, joined with OR and wrapped in one pair of parentheses exactly
when there is more than one; not-like patterns are each individually
wrapped as (NOT ...), joined with AND, with the additional outer pair
exactly when there is more than one; the empty pattern list gives the
empty fragment with no error; any non-[]string value is ErrInvalidTag. -/
theorem claimC4 (fieldName : String) (ps : List String) (v : GoValue)
    (hv : ∀ qs : List String, v ≠ .vStringSlice qs) :
    buildLikeClause (.vStringSlice ps) fieldName =
      ((if 1 < ps.length then
          "(" ++ joinWith " OR " (ps.map (likeFrag fieldName)) ++ ")"
        else joinWith " OR " (ps.map (likeFrag fieldName))), none) ∧
    buildNotLikeClause (.vStringSlice ps) fieldName =
      ((if 1 < ps.length then
          "(" ++ joinWith " AND " (ps.map (notLikeFrag fieldName)) ++ ")"
        else joinWith " AND " (ps.map (notLikeFrag fieldName))), none) ∧
    buildLikeClause (.vStringSlice []) fieldName = ("", none) ∧
    buildNotLikeClause (.vStringSlice []) fieldName = ("", none) ∧
    buildLikeClause v fieldName = ("", some .ErrInvalidTag) ∧
    buildNotLikeClause v fieldName = ("", some .ErrInvalidTag) := by
  have hlike := likeItems_join_like fieldName ps
  have hnot := likeItems_join_notLike fieldName ps
  refine ⟨?_, ?_, rfl, rfl, ?_, ?_⟩
  · rw [buildLikeClause, constructLikeClause, hlike]
    by_cases h : 1 < ps.length <;> simp [h]
  · rw [buildNotLikeClause, constructLikeClause, hnot]
    by_cases h : 1 < ps.length <;> simp [h]
  · cases v <;> first
      | rfl
      | exact absurd rfl (hv _)
  · cases v <;> first
      | rfl
      | exact absurd rfl (hv _)

/-- Witness for claim C4 at a concrete input. -/
theorem claimC4_witness :
    (∀ qs : List String, (GoValue.vInt .i 0) ≠ .vStringSlice qs) ∧
    buildLikeClause (.vStringSlice ["-db", "-dbmgmt"]) "Host_Name__c" =
      ((if 1 < (["-db", "-dbmgmt"] : List String).length then
          "(" ++ joinWith " OR "
            ((["-db", "-dbmgmt"] : List String).map (likeFrag "Host_Name__c")) ++ ")"
        else joinWith " OR "
          ((["-db", "-dbmgmt"] : List String).map (likeFrag "Host_Name__c"))),
       none) ∧
    buildLikeClause (.vInt .i 0) "Host_Name__c" = ("", some .ErrInvalidTag) := by
  have h := claimC4 "Host_Name__c" ["-db", "-dbmgmt"] (.vInt .i 0)
    (fun qs hq => GoValue.noConfusion hq)
  exact ⟨fun qs hq => GoValue.noConfusion hq, h.1, h.2.2.2.2.1⟩

/- The loop of marshalWhereClause joins the non-empty partial clauses with
   the joiner, in field order. -/
theorem whereLoop_join (fs : GoFields) (t j buff : String) (prev : Bool)
    (h : ∀ f ∈ fieldsList fs, (wherePartial f t).2 = none) :
    whereLoop fs t j buff prev =
      (buff ++
        (if prev ∧ nonEmptyPartials fs t ≠ [] then j else "") ++
        joinWith j (nonEmptyPartials fs t), none) := by
  cases fs with
  | nil =>
    simp [whereLoop, nonEmptyPartials, fieldsList, joinWith]
  | cons f rest =>
    have hf : (wherePartial f t).2 = none := h f (by simp [fieldsList])
    have hrest : ∀ g ∈ fieldsList rest, (wherePartial g t).2 = none :=
      fun g hg => h g (by simp [fieldsList, hg])
    have ih := whereLoop_join rest t j
    rcases hpc : wherePartial f t with ⟨pc, e⟩
    rw [hpc] at hf
    simp only at hf
    subst hf
    rw [whereLoop, hpc]
    by_cases hpc0 : pc = ""
    · simp only [hpc0, if_pos rfl]
      have hsame : nonEmptyPartials (.cons f rest) t = nonEmptyPartials rest t := by
        simp [nonEmptyPartials, fieldsList, hpc, hpc0]
      rw [hsame]
      exact ih buff prev hrest
    · simp only [if_neg hpc0]
      rw [ih (buff ++ (if prev then j else "") ++ pc) true hrest]
      have hne : nonEmptyPartials (.cons f rest) t = pc :: nonEmptyPartials rest t := by
        simp [nonEmptyPartials, fieldsList, hpc, hpc0]
      rw [hne]
      refine Prod.ext ?_ rfl
      cases hfr : nonEmptyPartials rest t with
      | nil =>
        cases prev <;> (apply String.ext; simp [joinWith, String.data_append])
      | cons q qs =>
        cases prev <;> (apply String.ext; simp [joinWith, String.data_append])

/-- Claim C5: MarshalWhereClause joins the top-level non-empty condition
fragments with " AND " in field declaration order — the exported entry
point always passes the fixed " AND " joiner, so no joiner tag on the root
criteria can influence it; a joiner tag takes effect only where a joiner
parameter is read, i.e. for a nested subgroup (wherePartial reads the
subgroup field's own tag) or through the Marshal path (marshalLoop reads
the whereClause field's tag). -/
theorem claimC5 (fs : GoFields)
    (h : ∀ f ∈ fieldsList fs, (wherePartial f "").2 = none) :
    MarshalWhereClause (.vStruct fs) =
      (joinWith " AND " (nonEmptyPartials fs ""), none) ∧
    (∀ v : GoValue, MarshalWhereClause v = marshalWhereClause v "" " AND ") := by
  constructor
  · rw [MarshalWhereClause, marshalWhereClause,
      whereLoop_join fs "" " AND " "" false h]
    simp
  · intro v
    rfl

/-- Witness for claim C5 at a concrete criteria struct. -/
theorem claimC5_witness :
    (∀ f ∈ fieldsList sampleCriteria, (wherePartial f "").2 = none) ∧
    MarshalWhereClause (.vStruct sampleCriteria) =
      (joinWith " AND " (nonEmptyPartials sampleCriteria ""), none) :=
  ⟨by decide, (claimC5 sampleCriteria (by decide)).1⟩

/-- Claim C9: a subquery field holding a (struct or non-nil pointer)
criteria whose nested compilation is empty still contributes the literal
fragment "()", joined to its neighbours with the enclosing joiner; an
ordinary field whose partial clause is empty is skipped without consuming
a joiner slot. -/
theorem claimC9 (f : GoField) (ns : GoFields) (rest : GoFields)
    (t j j' buff : String) (prev : Bool)
    (hkey : getClauseKey f.tag = "subquery")
    (hjoin : getJoiner f.tag = (j', none))
    (hval : f.value = .vStruct ns ∨ f.value = .vPtrStructV ns)
    (hempty : marshalWhereClause (.vStruct ns) t j' = ("", none)) :
    whereLoop (.cons f rest) t j buff prev =
      whereLoop rest t j (buff ++ (if prev then j else "") ++ "()") true ∧
    (∀ g : GoField, wherePartial g t = ("", none) →
      whereLoop (.cons g rest) t j buff prev = whereLoop rest t j buff prev) := by
  constructor
  · have hpartial : wherePartial f t = ("()", none) := by
      obtain ⟨fname, tag, value⟩ := f
      simp only [GoField.tag, GoField.value] at hkey hjoin hval
      simp only [marshalWhereClause] at hempty
      rcases hval with hv | hv <;> subst hv <;>
        simp [wherePartial, marshalWhereClause, hkey, hjoin, hempty]
    rw [whereLoop, hpartial]
    simp
  · intro g hg
    rw [whereLoop, hg]
    simp

/-- Witness for claim C9 at a concrete input. -/
theorem claimC9_witness :
    getClauseKey (GoField.tag sampleSubgroupField) = "subquery" ∧
    getJoiner (GoField.tag sampleSubgroupField) = (" OR ", none) ∧
    marshalWhereClause (.vStruct sampleEmptyCrit) "" " OR " = ("", none) ∧
    whereLoop (.cons sampleSubgroupField .nil) "" " AND " "" false =
      whereLoop .nil "" " AND "
        ("" ++ (if false then " AND " else "") ++ "()") true :=
  ⟨by decide, by decide, by decide,
    (claimC9 sampleSubgroupField sampleEmptyCrit .nil "" " AND " " OR " "" false
      (by decide) (by decide) (Or.inl rfl) (by decide)).1⟩

/- A criteria field list with no selectColumn tag never extends the
   column mappings. -/
theorem mapSelectColumns_skip (fs : GoFields) (p g : String)
    (m : List (String × String)) (h : noSelectColumn fs = true) :
    mapSelectColumns fs p g m = m := by
  cases fs with
  | nil => rfl
  | cons f rest =>
    obtain ⟨n, t, v⟩ := f
    simp only [noSelectColumn, GoField.tag, Bool.and_eq_true,
      decide_eq_true_eq] at h
    rw [mapSelectColumns]
    by_cases ht : t = ""
    · rw [if_pos ht]
      exact mapSelectColumns_skip rest p g m h.2
    · rw [if_neg ht, if_pos h.1]
      exact mapSelectColumns_skip rest p g m h.2

/-- Claim C10: when the select-column struct has no field tagged
selectColumn, the order-by compiler fails with
ErrInvalidSelectColumnOrderByClause — the empty column mapping is checked
before the order entries, so this holds even for the empty order list. -/
theorem claimC10 (orders : List Order) (tableName : String) (sfs : GoFields)
    (h : noSelectColumn sfs = true) :
    marshalOrderByClause (.vOrderSlice orders) tableName (.vStruct sfs) =
      ("", some .ErrInvalidSelectColumnOrderByClause) ∧
    MarshalOrderByClause (.vOrderSlice orders) (.vStruct sfs) =
      ("", some .ErrInvalidSelectColumnOrderByClause) := by
  have hm := mapSelectColumns_skip sfs "" "" [] h
  constructor <;> simp [MarshalOrderByClause, marshalOrderByClause, hm]

/-- Witness for claim C10: an empty order list against a criteria-only
struct. -/
theorem claimC10_witness :
    noSelectColumn
      (.cons (.mk "Roles" "inOperator,fieldName=Role__r.Name"
        (.vStringSlice [])) .nil) = true ∧
    MarshalOrderByClause (.vOrderSlice [])
      (.vStruct (.cons (.mk "Roles" "inOperator,fieldName=Role__r.Name"
        (.vStringSlice [])) .nil)) =
      ("", some .ErrInvalidSelectColumnOrderByClause) :=
  ⟨by decide,
    (claimC10 [] ""
      (.cons (.mk "Roles" "inOperator,fieldName=Role__r.Name"
        (.vStringSlice [])) .nil) (by decide)).2⟩

/-- Claim C7, counterexample: with two selectClause-tagged fields whose
first value is not a struct, Marshal returns ErrInvalidTag — the select
clause of the FIRST field is marshalled (and its error returned) before
the duplicate-check on the second field is ever reached, so the claim
"always ErrMultipleSelectClause regardless of the content of those
fields" fails. -/
theorem claimC7_counterexample :
    Marshal (.vStruct (.cons (.mk "A" "selectClause" (.vString "x"))
      (.cons (.mk "B" "selectClause" (.vString "y")) .nil))) =
      ("", some .ErrInvalidTag) := by
  simp [Marshal, marshal, marshalLoop, MarshalSelectClause, getClauseKey,
    splitOnChar, splitOnCharAux]

/-- Claim C7 as amended: a query struct with two selectClause-tagged
fields yields ErrMultipleSelectClause whenever marshalling the select
clause of the FIRST such field succeeds (the content of the second field
remains irrelevant); if the first select clause itself fails to marshal,
that error is returned instead. -/
theorem claimC7_amended (n1 t1 n2 t2 : String) (v1 v2 : GoValue)
    (h1 : getClauseKey t1 = "selectClause")
    (h2 : getClauseKey t2 = "selectClause")
    (hok : (MarshalSelectClause v1 "").2 = none) :
    Marshal (.vStruct (.cons (.mk n1 t1 v1) (.cons (.mk n2 t2 v2) .nil))) =
      ("", some .ErrMultipleSelectClause) := by
  have ht1 : t1 ≠ "" := by
    intro he
    rw [he] at h1
    exact absurd h1 (by decide)
  have ht2 : t2 ≠ "" := by
    intro he
    rw [he] at h2
    exact absurd h2 (by decide)
  rcases hM : MarshalSelectClause v1 "" with ⟨s1, e1⟩
  rw [hM] at hok
  simp only at hok
  subst hok
  simp [Marshal, marshal, marshalLoop, h1, h2, ht1, ht2, hM]

/-- Witness for claim C7 at a concrete input. -/
theorem claimC7_witness :
    getClauseKey "selectClause,tableName=T1__c" = "selectClause" ∧
    getClauseKey "selectClause" = "selectClause" ∧
    (MarshalSelectClause
      (.vStruct (.cons (.mk "ID" "selectColumn,fieldName=Id" (.vString "")) .nil))
      "").2 = none ∧
    Marshal (.vStruct
      (.cons (.mk "A" "selectClause,tableName=T1__c"
        (.vStruct (.cons (.mk "ID" "selectColumn,fieldName=Id" (.vString "")) .nil)))
      (.cons (.mk "B" "selectClause" (.vBool true)) .nil))) =
      ("", some .ErrMultipleSelectClause) :=
  ⟨by decide, by decide,
    by simp [MarshalSelectClause, selectLoop, getClauseKey, getFieldName,
      getTagValue, splitOnChar, splitOnCharAux, joinWith],
    claimC7_amended "A" "selectClause,tableName=T1__c" "B" "selectClause" _ _
      (by decide) (by decide)
      (by simp [MarshalSelectClause, selectLoop, getClauseKey, getFieldName,
        getTagValue, splitOnChar, splitOnCharAux, joinWith])⟩

/-- Claim C1: a child query struct (a selectClause field whose tag
resolves the table name T, plus a whereClause field) marshalled under a
child relationship name R yields the fully parenthesized sub-query
"(SELECT <cols> FROM R WHERE <conds>)", where the select columns are
rendered by MarshalSelectClause with relationship name T (so every column
is qualified by T and a period) and the conditions by marshalWhereClause
with table qualifier T; and the select loop of the parent splices the
fragment produced for a selectChild field — whose relationship name is
the accumulated prefix plus the resolved field name — verbatim into the
parent's select list. -/
theorem claimC1 (T R jn sel w n1 t1 n2 t2 : String) (sv wv : GoValue)
    (hkey1 : getClauseKey t1 = "selectClause")
    (htable : getTableName t1 n1 = T)
    (hkey2 : getClauseKey t2 = "whereClause")
    (hjoin : getJoiner t2 = (jn, none))
    (hsel : MarshalSelectClause sv T = (sel, none))
    (hw : marshalWhereClause wv T jn = (w, none))
    (hwne : w ≠ "") (hR : R ≠ "") :
    marshal (.vStruct (.cons (.mk n1 t1 sv) (.cons (.mk n2 t2 wv) .nil))) R =
      ("(SELECT " ++ sel ++ " FROM " ++ R ++ " WHERE " ++ w ++ ")", none) ∧
    (∀ (pn pt pfx buff frag : String) (cv : GoValue) (rest : GoFields),
      getClauseKey pt = "selectChild" →
      getFieldName pt pn ≠ "" →
      marshal cv (pfx ++ getFieldName pt pn) = (frag, none) →
      selectLoop (.cons (.mk pn pt cv) rest) pfx buff =
        selectLoop rest pfx (buff ++ frag ++ ",")) := by
  constructor
  · have ht1 : t1 ≠ "" := by
      intro he
      rw [he] at hkey1
      exact absurd hkey1 (by decide)
    have ht2 : t2 ≠ "" := by
      intro he
      rw [he] at hkey2
      exact absurd hkey2 (by decide)
    simp [marshal, marshalLoop, marshalAssemble, hkey1, hkey2, htable, hjoin,
      hsel, hw, ht1, ht2, hR, hwne] <;>
      (apply String.ext; simp [String.data_append])
  · intro pn pt pfx buff frag cv rest hck hfn hm
    have hpt : pt ≠ "" := by
      intro he
      rw [he] at hck
      exact absurd hck (by decide)
    rw [selectLoop.eq_def]
    simp [hck, hpt, hfn, hm]

/-- Witness for claim C1 at the inputs of Scenario C. -/
theorem claimC1_witness :
    getClauseKey "selectClause,tableName=SM_Application_Versions__c" =
      "selectClause" ∧
    getTableName "selectClause,tableName=SM_Application_Versions__c"
      "SelectClause" = "SM_Application_Versions__c" ∧
    getClauseKey "whereClause" = "whereClause" ∧
    getJoiner "whereClause" = (" AND ", none) ∧
    MarshalSelectClause (.vStruct scenarioChildShape)
      "SM_Application_Versions__c" =
      ("SM_Application_Versions__c.Version__c", none) ∧
    marshalWhereClause (.vStruct scenarioChildCrit)
      "SM_Application_Versions__c" " AND " =
      ("SM_Application_Versions__c.Name__c = 'sfdc-release'", none) ∧
    marshal (.vStruct
      (.cons (.mk "SelectClause"
        "selectClause,tableName=SM_Application_Versions__c"
        (.vStruct scenarioChildShape))
      (.cons (.mk "WhereClause" "whereClause" (.vStruct scenarioChildCrit))
        .nil))) "Application_Versions__r" =
      ("(SELECT " ++ "SM_Application_Versions__c.Version__c" ++ " FROM " ++
        "Application_Versions__r" ++ " WHERE " ++
        "SM_Application_Versions__c.Name__c = 'sfdc-release'" ++ ")", none) :=
  ⟨by decide, by decide, by decide, by decide,
    by simp [MarshalSelectClause, selectLoop, scenarioChildShape, getClauseKey,
      getFieldName, getTagValue, splitOnChar, splitOnCharAux, joinWith,
      goTrimRightCommas, List.dropWhile],
    by decide,
    (claimC1 "SM_Application_Versions__c" "Application_Versions__r" " AND "
      "SM_Application_Versions__c.Version__c"
      "SM_Application_Versions__c.Name__c = 'sfdc-release'"
      "SelectClause" "selectClause,tableName=SM_Application_Versions__c"
      "WhereClause" "whereClause"
      (.vStruct scenarioChildShape) (.vStruct scenarioChildCrit)
      (by decide) (by decide) (by decide) (by decide)
      (by simp [MarshalSelectClause, selectLoop, scenarioChildShape,
        getClauseKey, getFieldName, getTagValue, splitOnChar, splitOnCharAux,
        joinWith, goTrimRightCommas, List.dropWhile])
      (by decide) (by decide) (by decide)).1⟩

/- ===== Error results carry the empty string (for claim C8) ===== -/

theorem whereLoop_err (fs : GoFields) (t j buff : String) (prev : Bool) :
    (whereLoop fs t j buff prev).2 = none ∨
    (whereLoop fs t j buff prev).1 = "" := by
  cases fs with
  | nil => exact Or.inl rfl
  | cons f rest =>
    rw [whereLoop]
    repeat' split
    all_goals first
      | exact Or.inr rfl
      | exact whereLoop_err rest t j _ _

theorem marshalWhereClause_err (v : GoValue) (t j : String) :
    (marshalWhereClause v t j).2 = none ∨ (marshalWhereClause v t j).1 = "" := by
  cases v <;>
    first
      | exact whereLoop_err _ t j "" false
      | exact Or.inr rfl
      | (rename_i o; cases o <;> exact Or.inr rfl)

theorem orderLoop_err (orders : List Order) (m : List (String × String))
    (t buff : String) (prev : Bool) :
    (orderLoop orders m t buff prev).2 = none ∨
    (orderLoop orders m t buff prev).1 = "" := by
  induction orders generalizing buff prev with
  | nil => exact Or.inl rfl
  | cons o rest ih =>
    rw [orderLoop]
    by_cases h1 : goTrimSpace o.Field = ""
    · simp [h1]
    · rw [if_neg h1]
      cases h2 : mapGet m o.Field with
      | none => simp
      | some cn => exact ih _ _

theorem marshalOrderByClause_err (v : GoValue) (t : String) (s : GoValue) :
    (marshalOrderByClause v t s).2 = none ∨
    (marshalOrderByClause v t s).1 = "" := by
  simp only [marshalOrderByClause.eq_def]
  repeat' split
  all_goals
    first
      | exact Or.inl rfl
      | exact Or.inr rfl
      | exact orderLoop_err _ _ _ _ _

theorem marshalLimitClause_err (v : GoValue) :
    (marshalLimitClause v).2 = none ∨ (marshalLimitClause v).1 = "" := by
  rw [marshalLimitClause]
  rcases h : marshalIntValue v with ⟨s, e⟩
  cases e <;> simp

theorem marshalOffsetClause_err (v : GoValue) :
    (marshalOffsetClause v).2 = none ∨ (marshalOffsetClause v).1 = "" := by
  rw [marshalOffsetClause]
  rcases h : marshalIntValue v with ⟨s, e⟩
  cases e <;> simp

theorem marshalAssemble_err (st : MarshalState) (c : String) :
    (marshalAssemble st c).2 = none ∨ (marshalAssemble st c).1 = "" := by
  simp only [marshalAssemble]
  repeat' split
  all_goals first
    | exact Or.inl rfl
    | exact Or.inr rfl

theorem selectLoop_err (fs : GoFields) (pfx buff : String) :
    (selectLoop fs pfx buff).2 = none ∨ (selectLoop fs pfx buff).1 = "" := by
  rw [selectLoop.eq_def]
  repeat' split
  all_goals first
    | exact Or.inl rfl
    | exact Or.inr rfl
    | exact selectLoop_err _ _ _

theorem marshal_err (v : GoValue) (c : String) :
    (marshal v c).2 = none ∨ (marshal v c).1 = "" := by
  rw [marshal.eq_def]
  repeat' split
  all_goals first
    | exact Or.inl rfl
    | exact Or.inr rfl
    | exact marshalAssemble_err _ _

theorem MarshalSelectClause_err (v : GoValue) (rel : String) :
    (MarshalSelectClause v rel).2 = none ∨
    (MarshalSelectClause v rel).1 = "" := by
  rw [MarshalSelectClause.eq_def]
  repeat' split
  all_goals first
    | exact Or.inl rfl
    | exact Or.inr rfl

theorem Marshal_err (v : GoValue) :
    (Marshal v).2 = none ∨ (Marshal v).1 = "" := by
  rw [Marshal.eq_def]
  repeat' split
  all_goals first
    | exact Or.inl rfl
    | exact Or.inr rfl
    | exact marshal_err _ ""

/-- Claim C8: at each exported entry point — Marshal, MarshalSelectClause,
MarshalWhereClause, MarshalOrderByClause — either the returned error is
nil or the returned text is exactly the empty string, so no partial query
text is ever returned alongside an error. -/
theorem claimC8 (v s : GoValue) (rel : String) :
    ((Marshal v).2 = none ∨ (Marshal v).1 = "") ∧
    ((MarshalSelectClause v rel).2 = none ∨ (MarshalSelectClause v rel).1 = "") ∧
    ((MarshalWhereClause v).2 = none ∨ (MarshalWhereClause v).1 = "") ∧
    ((MarshalOrderByClause v s).2 = none ∨ (MarshalOrderByClause v s).1 = "") :=
  ⟨Marshal_err v, MarshalSelectClause_err v rel,
    marshalWhereClause_err v "" " AND ", marshalOrderByClause_err v "" s⟩

end Soql
